import Mathlib

/-!
Verification development for the timetick time-tracking service.

The development shallowly embeds the storage layer (`db.go`), the HTTP
synchronization handlers and authentication middleware (`api.go`), and the
conversational tracking state machine (`bot.go`).  SQLite state is modelled
as a list of `Entry` records together with the next AUTOINCREMENT id;
timestamps are abstract `Nat` values passed explicitly; fallible storage
reads the handlers must survive are modelled by an explicit failure
injection record.
-/

/-- One row of the `entries` table (db.go, `Entry` struct).  `end_time` and
`imported_at` are nullable columns, modelled with `Option`. -/
structure Entry where
  id : Nat
  userId : String
  startTime : Nat
  endTime : Option Nat
  note : String
  active : Bool
  importedAt : Option Nat
deriving DecidableEq, Repr

/-- The SQLite store: rows of `entries` in insertion (rowid) order plus the
next AUTOINCREMENT id. -/
structure Database where
  entries : List Entry
  nextId : Nat
deriving DecidableEq, Repr

/-- The empty store produced by `initDB`. -/
def emptyDb : Database := { entries := [], nextId := 1 }

/-- Row of the `api_tokens` table (the plaintext secret is never stored,
only its hash). -/
structure ApiToken where
  id : Nat
  hash : String
  isActive : Bool
deriving DecidableEq, Repr

/- ### Storage engine operations (db.go) -/

/-- Predicate of `hasActiveEntrySQL` / `getActiveEntrySQL`:
`user_id = ? AND active = 1`. -/
def activeFor (u : String) (e : Entry) : Bool :=
  e.userId == u && e.active

/-- `hasActiveEntry` (db.go): `SELECT COUNT(*) ... WHERE user_id = ? AND
active = 1`, returning `count > 0`. -/
def hasActiveEntry (db : Database) (u : String) : Bool :=
  decide (0 < db.entries.countP (activeFor u))

/-- The row inserted by `createEntrySQL`: active, no end time, not
imported; id is the AUTOINCREMENT value. -/
def freshEntry (id : Nat) (u : String) (now : Nat) (note : String) : Entry :=
  { id := id, userId := u, startTime := now, endTime := none
    note := note, active := true, importedAt := none }

/-- Effect of `createEntrySQL`: append the new row, bump the id. -/
def insertEntry (db : Database) (u : String) (now : Nat) (note : String) : Database :=
  { entries := db.entries ++ [freshEntry db.nextId u now note]
    nextId := db.nextId + 1 }

/-- Error message of `StartTracking` when an active entry already exists. -/
def alreadyActiveMsg : String := "User already have started tracking."

/-- `StartTracking` (db.go): check `hasActiveEntry`, fail with the
invariant error if one exists, otherwise insert a fresh active row. -/
def StartTracking (db : Database) (u : String) (note : String) (now : Nat) :
    Except String Database :=
  if hasActiveEntry db u then Except.error alreadyActiveMsg
  else Except.ok (insertEntry db u now note)

/-- `getActiveEntry` (db.go): `getActiveEntrySQL` selects only
`id, user_id, start_time, end_time, active` with `LIMIT 1`, so the scanned
snapshot carries zero values for `note` and `imported_at`. -/
def getActiveEntry (db : Database) (u : String) : Option Entry :=
  (db.entries.find? (activeFor u)).map
    (fun e => { e with note := "", importedAt := none })

/-- Effect of `updateEntrySQL`: `SET end_time = ?, active = 0 WHERE id = ?`. -/
def stopUpdate (db : Database) (entryId : Nat) (endTime : Nat) : Database :=
  { db with entries := db.entries.map (fun e =>
      if e.id == entryId then { e with endTime := some endTime, active := false } else e) }

/-- Error message of `StopTracking` when no active entry exists. -/
def noActiveMsg : String := "There is no active entry currently."

/-- `StopTracking` (db.go): locate the active entry, fail if none, else
stamp `end_time`, clear `active`, and return the updated snapshot built in
Go by mutating the scanned struct. -/
def StopTracking (db : Database) (u : String) (now : Nat) :
    Except String (Entry × Database) :=
  match getActiveEntry db u with
  | none => Except.error noActiveMsg
  | some e =>
      Except.ok ({ e with endTime := some now, active := false }, stopUpdate db e.id now)

/-- `GetUnimportedEntries` (db.go): rows with `imported_at IS NULL`, in
rowid order. -/
def GetUnimportedEntries (db : Database) : List Entry :=
  db.entries.filter (fun e => e.importedAt.isNone)

/-- Effect of `updateEntryImportStatusSQL`:
`SET imported_at = CURRENT_TIMESTAMP WHERE id = ?` (unconditional). -/
def UpdateEntryImportStatus (db : Database) (entryId : Nat) (now : Nat) : Database :=
  { db with entries := db.entries.map (fun e =>
      if e.id == entryId then { e with importedAt := some now } else e) }

/-- `CheckEntry` (db.go): `SELECT COUNT(*), CASE WHEN imported_at IS NULL
THEN 1 ELSE 0 END FROM entries WHERE id = ?`.  This is an aggregate query,
so SQLite always returns one row; when no row matches, the bare column
`imported_at` in the CASE evaluates over the absent row as NULL, making the
CASE yield 1.  Hence a nonexistent id produces `(exists, unimported) =
(false, true)`.  The Go function returns `(count > 0, unimported == 1)`. -/
def CheckEntry (db : Database) (entryId : Nat) : Bool × Bool :=
  match db.entries.find? (fun e => e.id == entryId) with
  | none => (false, true)
  | some e => (true, e.importedAt.isNone)

/-- Modelled from the spec: `tokenByHash(hash) -> ApiToken | not-found`.
The storage function `GetApiTokenByHash` is referenced by the middleware
but its body is not among the provided sources; per the spec it looks up an
`ApiToken` by its content hash, reporting not-found when absent. -/
def GetApiTokenByHash (tokens : List ApiToken) (h : String) : Option ApiToken :=
  tokens.find? (fun t => t.hash == h)

/- ### API layer (api.go) -/

/-- `ErrorCode` constants of api.go, including the middleware codes. -/
inductive ErrorCode where
  | MISSING_PARAMS
  | INVALID_REQUEST
  | INTERNAL_ERROR
  | NO_ENTRIES
  | NO_ENTRIES_TO_IMPORT
  | FAILED_FETCH
  | ENTRY_NOT_FOUND
  | IMPORT_FAILED
  | INVALID_TOKEN
  | MISSING_TOKEN
deriving DecidableEq, Repr

/-- Injected storage failures for the handlers: whether
`GetUnimportedEntries` errors, and the entry ids on which `CheckEntry`
resp. `UpdateEntryImportStatus` error. -/
structure FailureModel where
  listFails : Bool
  checkFails : List Nat
  updateFails : List Nat
deriving DecidableEq, Repr

/-- No injected storage failure. -/
def noFail : FailureModel := { listFails := false, checkFails := [], updateFails := [] }

/-- Outcome written by the list handler `getUnimportedEntries`. -/
inductive ListResponse where
  | ok (total : Nat) (entries : List Entry)
  | err (status : Nat) (code : ErrorCode)
deriving DecidableEq, Repr

/-- Handler `getUnimportedEntries` (api.go): storage failure is surfaced as
500 `FAILED_FETCH`; an empty result is reported as 404
`NO_ENTRIES_TO_IMPORT`; otherwise 200 with total and entries. -/
def getUnimportedEntriesHandler (db : Database) (listFails : Bool) : ListResponse :=
  if listFails then ListResponse.err 500 ErrorCode.FAILED_FETCH
  else
    let entries := GetUnimportedEntries db
    if entries.length == 0 then ListResponse.err 404 ErrorCode.NO_ENTRIES_TO_IMPORT
    else ListResponse.ok entries.length entries

/-- Outcome written by the batch handler `markEntriesAsImported`.
`badRequest` is the `http.Error` on a JSON decode failure; `noResponse`
records the path where the Go handler returns without writing anything
(its `GetUnimportedEntries` error branch only logs and returns, so the
server sends an implicit empty 200). -/
inductive MarkResponse where
  | ok (importedCount : Nat) (remainingCount : Nat)
  | err (status : Nat) (code : ErrorCode)
  | badRequest
  | noResponse
deriving DecidableEq, Repr

/-- One iteration of the marking loop: `CheckEntry`, skip on storage
error, skip if absent, skip if already imported, mark and count on
success unless the update itself errors. -/
def processOne (db : Database) (fm : FailureModel) (entryId : Nat) (now : Nat) :
    Database × Nat :=
  if fm.checkFails.contains entryId then (db, 0)
  else
    let check := CheckEntry db entryId
    if !check.1 then (db, 0)
    else if !check.2 then (db, 0)
    else if fm.updateFails.contains entryId then (db, 0)
    else (UpdateEntryImportStatus db entryId now, 1)

/-- The `for _, entryID := range req.EntryIDs` loop accumulating
`importedCount`. -/
def markLoop (fm : FailureModel) (now : Nat) (db : Database) :
    List Nat → Database × Nat
  | [] => (db, 0)
  | i :: rest =>
    let step := processOne db fm i now
    let next := markLoop fm now step.1 rest
    (next.1, step.2 + next.2)

/-- Handler `markEntriesAsImported` (api.go).  `body` is `none` on a JSON
decode failure and otherwise carries `entry_ids` (absent field decodes to
an empty list).  The unimported count is read before any mutation and is
reported verbatim as `remaining_count`. -/
def markEntriesAsImported (db : Database) (body : Option (List Nat))
    (fm : FailureModel) (now : Nat) : MarkResponse × Database :=
  match body with
  | none => (MarkResponse.badRequest, db)
  | some entryIds =>
    if entryIds.length == 0 then
      (MarkResponse.err 400 ErrorCode.MISSING_PARAMS, db)
    else if fm.listFails then
      (MarkResponse.noResponse, db)
    else
      let remainingUnimportedCount := (GetUnimportedEntries db).length
      if remainingUnimportedCount == 0 then
        (MarkResponse.err 404 ErrorCode.NO_ENTRIES_TO_IMPORT, db)
      else
        let looped := markLoop fm now db entryIds
        (MarkResponse.ok looped.2 remainingUnimportedCount, looped.1)

/- ### Authentication middleware (api.go) -/

/-- Decision of `AuthMiddleware`: either a 401 rejection with the error
code and message it writes, or the resolved token attached to the request
context. -/
inductive AuthOutcome where
  | rejected (status : Nat) (code : ErrorCode) (msg : String)
  | allowed (t : ApiToken)
deriving DecidableEq, Repr

/-- Split a character list at the first space, if any. -/
def breakAtSpace : List Char → Option (List Char × List Char)
  | [] => none
  | c :: rest =>
    if c = ' ' then some ([], rest)
    else
      match breakAtSpace rest with
      | none => none
      | some (l, r) => some (c :: l, r)

/-- `strings.SplitN(s, " ", 2)`: the whole string when it has no space,
otherwise the part before the first space and the remainder after it. -/
def splitN2 (s : String) : List String :=
  match breakAtSpace s.data with
  | none => [s]
  | some (l, r) => [String.mk l, String.mk r]

/-- `strings.ToLower` restricted to its ASCII action, which is all the
scheme comparison needs. -/
def lowerString (s : String) : String :=
  String.mk (s.data.map Char.toLower)

/-- `AuthMiddleware` (api.go): empty header rejects with `MISSING_TOKEN`;
a header that does not split into a case-insensitive `Bearer` scheme plus
a token rejects with `INVALID_TOKEN` and the format message; otherwise the
token is hashed and looked up, and a missing or inactive row rejects with
the single undifferentiated `INVALID_TOKEN` message.  `hashFn` abstracts
the SHA-256 `Hash` helper. -/
def AuthMiddleware (tokens : List ApiToken) (hashFn : String → String)
    (authHeader : String) : AuthOutcome :=
  if authHeader == "" then
    AuthOutcome.rejected 401 ErrorCode.MISSING_TOKEN "Authentication token required"
  else
    let parts := splitN2 authHeader
    if parts.length != 2 || lowerString (parts.headD "") != "bearer" then
      AuthOutcome.rejected 401 ErrorCode.INVALID_TOKEN "Invalid Authorization header format"
    else
      match GetApiTokenByHash tokens (hashFn (parts.getD 1 "")) with
      | none =>
          AuthOutcome.rejected 401 ErrorCode.INVALID_TOKEN "Invalid or inactive API token"
      | some t =>
          if !t.isActive then
            AuthOutcome.rejected 401 ErrorCode.INVALID_TOKEN "Invalid or inactive API token"
          else AuthOutcome.allowed t

/-- Composition of the middleware with a protected handler: the handler
runs only on the `allowed` outcome; every rejection terminates the call
with the middleware response. -/
def authThen (tokens : List ApiToken) (hashFn : String → String)
    (authHeader : String) (handler : ApiToken → MarkResponse) : MarkResponse :=
  match AuthMiddleware tokens hashFn authHeader with
  | AuthOutcome.rejected status code _ => MarkResponse.err status code
  | AuthOutcome.allowed t => handler t

/- ### Tracking state machine (bot.go) -/

/-- Per-bot conversational state: the transient `pendingNotes` map (key set
of user ids) together with the shared store.  `authorizedUsers` and the
Telegram transport are out of scope; messages below are those of an
authorized user, matching the dispatch after the `isAuthorized` guard. -/
structure BotState where
  pendingNotes : List Nat
  db : Database
deriving DecidableEq, Repr

/-- `hasPendingNote` (bot.go): key lookup in the `pendingNotes` map. -/
def hasPendingNote (st : BotState) (userId : Nat) : Bool :=
  st.pendingNotes.contains userId

/-- `delete(b.pendingNotes, userId)`: the key is removed entirely. -/
def removePendingNote (pending : List Nat) (userId : Nat) : List Nat :=
  pending.filter (fun v => v != userId)

/-- `b.pendingNotes[userAjDi] = true`: the key is present afterwards. -/
def addPendingNote (pending : List Nat) (userId : Nat) : List Nat :=
  if pending.contains userId then pending else userId :: pending

/-- `strconv.FormatInt(userId, 10)`: the string key under which entries of
a user are stored. -/
def userKey (userId : Nat) : String := toString userId

/-- `processPendingNote` (bot.go): the literal message `"x"` becomes the
empty note, anything else is the note verbatim; `StartTracking` is called
and the pending marker is deleted on both the error and the success path. -/
def processPendingNote (st : BotState) (userId : Nat) (msg : String) (now : Nat) :
    BotState :=
  let note := if msg == "x" then "" else msg
  match StartTracking st.db (userKey userId) note now with
  | Except.error _ =>
      { st with pendingNotes := removePendingNote st.pendingNotes userId }
  | Except.ok db2 =>
      { pendingNotes := removePendingNote st.pendingNotes userId, db := db2 }

/-- `handleCommand` (bot.go): `/start` with no argument only records the
pending-note marker; `/start note` calls `StartTracking`; `/stop` calls
`StopTracking` and deletes the marker only after a successful stop (the
error path returns first); `/help` and unknown commands reply without
touching state or store. -/
def handleCommand (st : BotState) (userId : Nat) (command : String)
    (args : String) (now : Nat) : BotState :=
  if command == "start" then
    if args.length == 0 then
      { st with pendingNotes := addPendingNote st.pendingNotes userId }
    else
      match StartTracking st.db (userKey userId) args now with
      | Except.error _ => st
      | Except.ok db2 => { st with db := db2 }
  else if command == "stop" then
    match StopTracking st.db (userKey userId) now with
    | Except.error _ => st
    | Except.ok res =>
        { pendingNotes := removePendingNote st.pendingNotes userId, db := res.2 }
  else st

/-- `message.IsCommand()`: the message text opens with a slash. -/
def startsWithSlash (text : String) : Bool :=
  match text.data with
  | [] => false
  | c :: _ => c == '/'

/-- `message.Command()`: the word between the leading slash and the first
space. -/
def commandOf (text : String) : String :=
  match breakAtSpace (text.data.drop 1) with
  | none => String.mk (text.data.drop 1)
  | some (l, _) => String.mk l

/-- `message.CommandArguments()`: everything after the first space. -/
def argsOf (text : String) : String :=
  match breakAtSpace text.data with
  | none => ""
  | some (_, r) => String.mk r

/-- The per-message dispatch of `Start` (bot.go) after the authorization
guard: a user holding a pending-note marker has the raw message consumed
by `processPendingNote` before any command parsing; otherwise commands are
routed to `handleCommand` and plain text is ignored. -/
def dispatchMessage (st : BotState) (userId : Nat) (text : String) (now : Nat) :
    BotState :=
  if hasPendingNote st userId then
    processPendingNote st userId text now
  else if startsWithSlash text then
    handleCommand st userId (commandOf text) (argsOf text) now
  else st

/- ### Derived measures used by the theorems -/

/-- Number of active entries of a user. -/
def activeCount (db : Database) (u : String) : Nat :=
  db.entries.countP (activeFor u)

/-- Invariant I1: every user has at most one active entry. -/
def ActiveUnique (db : Database) : Prop :=
  ∀ u : String, activeCount db u ≤ 1

/-- Number of unimported entries (the length `GetUnimportedEntries`
reports). -/
def unimportedLen (db : Database) : Nat :=
  db.entries.countP (fun e => e.importedAt.isNone)

/-- Number of store entries that a batch of ids can still mark: unimported
entries whose id occurs in the batch. -/
def eligCount (db : Database) (ids : List Nat) : Nat :=
  db.entries.countP (fun e => e.importedAt.isNone && ids.contains e.id)

/-- A start/stop intent stream against the store, the alphabet of
invariant I1. -/
inductive Op where
  | start (u : String) (note : String) (now : Nat)
  | stop (u : String) (now : Nat)
deriving DecidableEq, Repr

/-- Apply one operation; a storage-level business error leaves the store
as it was (the error is reported to the user, nothing was written). -/
def applyOp (db : Database) : Op → Database
  | Op.start u note now =>
      match StartTracking db u note now with
      | Except.error _ => db
      | Except.ok db2 => db2
  | Op.stop u now =>
      match StopTracking db u now with
      | Except.error _ => db
      | Except.ok res => res.2

/-- Run a stream of operations. -/
def runOps (db : Database) (ops : List Op) : Database :=
  ops.foldl applyOp db

/- ### Skip condition of the marking loop -/

/-- An id the marking loop skips without mutating: `CheckEntry` reports it
nonexistent or already imported. -/
def checkSkips (db : Database) (entryId : Nat) : Prop :=
  (CheckEntry db entryId).1 = false ∨ (CheckEntry db entryId).2 = false

/- ### Concrete fixtures used by witnesses and counterexamples -/

/-- A store holding one active entry of user `7`. -/
def dbActive7 : Database := { entries := [freshEntry 1 "7" 0 "work"], nextId := 2 }

/-- A demonstration intent stream for user `7`: a start that must fail,
a stop, a start that succeeds, a second start that must fail again. -/
def opsDemo : List Op :=
  [Op.start "7" "again" 4, Op.stop "7" 5, Op.start "7" "next" 6, Op.start "7" "dup" 7]

/-- A store holding one active entry of user `5`. -/
def dbActive5 : Database := { entries := [freshEntry 1 "5" 2 "z"], nextId := 2 }

/-- Stopped, unimported entry with id 1. -/
def entryOne : Entry :=
  { id := 1, userId := "9", startTime := 1, endTime := some 2
    note := "a", active := false, importedAt := none }

/-- Stopped entry with id 2, already imported. -/
def entryTwo : Entry :=
  { id := 2, userId := "9", startTime := 3, endTime := some 4
    note := "b", active := false, importedAt := some 5 }

/-- Stopped, unimported entry with id 3. -/
def entryThree : Entry :=
  { id := 3, userId := "9", startTime := 6, endTime := some 7
    note := "c", active := false, importedAt := none }

/-- Scenario C store: id 1 unimported, id 2 imported, id 3 absent. -/
def dbScenC : Database := { entries := [entryOne, entryTwo], nextId := 3 }

/-- Store for the replay experiment: ids 1 and 3 unimported, id 2
imported. -/
def dbIdem : Database := { entries := [entryOne, entryTwo, entryThree], nextId := 4 }

/-- Bot state: user 5 awaits a note over an empty store. -/
def stPend : BotState := { pendingNotes := [5], db := emptyDb }

/-- Bot state: user 5 awaits a note while already tracking. -/
def stPendActive : BotState := { pendingNotes := [5], db := dbActive5 }

/-- Bot state: no pending note, user 5 already tracking. -/
def stIdle : BotState := { pendingNotes := [], db := dbActive5 }

/-- Token table: one active token, one deactivated token. -/
def tokensW : List ApiToken :=
  [{ id := 1, hash := "h-good", isActive := true },
   { id := 2, hash := "h-dead", isActive := false }]

/-- Concrete stand-in for the SHA-256 helper in witnesses. -/
def hashW : String → String := fun s => String.append "h-" s

/-- Failure model where reading the unimported set errors. -/
def failFetch : FailureModel := { listFails := true, checkFails := [], updateFails := [] }

/- ### General list lemmas -/

theorem countP_and_or {α : Type} (u x r : α → Bool) (l : List α) :
    l.countP (fun e => u e && (x e || r e)) + l.countP (fun e => u e && (x e && r e))
      = l.countP (fun e => u e && x e) + l.countP (fun e => u e && r e) := by
  induction l with
  | nil => rfl
  | cons a l ih =>
    simp only [List.countP_cons]
    cases hu : u a <;> cases hx : x a <;> cases hr : r a <;> simp <;> omega

theorem find?_map_keyed (f : Entry → Entry) (hf : ∀ e, (f e).id = e.id)
    (l : List Entry) (i : Nat) :
    (l.map f).find? (fun e => e.id == i) = (l.find? (fun e => e.id == i)).map f := by
  induction l with
  | nil => rfl
  | cons a l ih =>
    simp only [List.map_cons, List.find?_cons, hf]
    cases h : (a.id == i)
    · simp [ih]
    · simp

theorem map_id_update (l : List Entry) (f : Entry → Entry) (hf : ∀ e, (f e).id = e.id) :
    (l.map f).map Entry.id = l.map Entry.id := by
  rw [List.map_map]
  exact List.map_congr_left (fun e _ => hf e)

theorem countP_update_keyed (l : List Entry) (i now : Nat) (p : Entry → Bool)
    (hp : ∀ e : Entry, p { e with importedAt := some now } = false) :
    (l.map (fun e => if e.id == i then { e with importedAt := some now } else e)).countP p
      + l.countP (fun e => e.id == i && p e) = l.countP p := by
  induction l with
  | nil => rfl
  | cons a l ih =>
    simp only [List.map_cons, List.countP_cons]
    by_cases h : (a.id == i) = true
    · rw [if_pos h, hp a]
      have hb : (a.id == i && p a) = p a := by rw [h, Bool.true_and]
      rw [hb]
      simp only [Bool.false_eq_true, if_false]
      omega
    · have h2 : (a.id == i) = false := by revert h; cases (a.id == i) <;> simp
      rw [if_neg (show ¬((a.id == i) = true) by simp [h2])]
      have hb : (a.id == i && p a) = false := by rw [h2, Bool.false_and]
      rw [hb]
      simp only [Bool.false_eq_true, if_false]
      omega

theorem countP_id_none {l : List Entry} {i : Nat} (q : Entry → Bool)
    (h : l.find? (fun e => e.id == i) = none) :
    l.countP (fun e => e.id == i && q e) = 0 := by
  rw [List.countP_eq_zero]
  intro e he
  have hne := List.find?_eq_none.mp h e he
  simp only [Bool.and_eq_true]
  intro hc
  exact hne hc.1

theorem countP_id_found {i : Nat} (q : Entry → Bool) :
    ∀ {l : List Entry} {e0 : Entry}, (l.map Entry.id).Nodup →
      l.find? (fun e => e.id == i) = some e0 →
      l.countP (fun e => e.id == i && q e) = if q e0 then 1 else 0 := by
  intro l
  induction l with
  | nil => intro e0 _ hf; simp at hf
  | cons a l ih =>
    intro e0 hnd hf
    rw [List.map_cons, List.nodup_cons] at hnd
    by_cases h : (a.id == i) = true
    · simp only [List.find?_cons, h] at hf
      injection hf with hf
      subst hf
      rw [List.countP_cons]
      have hz : l.countP (fun e => e.id == i && q e) = 0 := by
        rw [List.countP_eq_zero]
        intro e he
        simp only [Bool.and_eq_true]
        intro hc
        have hei : e.id = i := by
          have := hc.1
          simpa using this
        have hai : a.id = i := by simpa using h
        exact hnd.1 (by rw [hai, ← hei]; exact List.mem_map_of_mem Entry.id he)
      rw [hz]
      simp [h]
    · have h2 : (a.id == i) = false := by revert h; cases (a.id == i) <;> simp
      simp only [List.find?_cons, h2] at hf
      rw [List.countP_cons]
      have hz : ((fun e => e.id == i && q e) a) = false := by simp [h2]
      simp only [hz, if_false, Nat.add_zero]
      exact ih hnd.2 hf

/- ### Active-entry accounting -/

theorem hasActiveEntry_false_iff {db : Database} {u : String} :
    hasActiveEntry db u = false ↔ activeCount db u = 0 := by
  unfold hasActiveEntry activeCount
  cases h : db.entries.countP (activeFor u) <;> simp [h]

theorem activeCount_insert_self (db : Database) (u : String) (now : Nat) (note : String) :
    activeCount (insertEntry db u now note) u = activeCount db u + 1 := by
  unfold activeCount insertEntry
  rw [List.countP_append]
  simp [activeFor, freshEntry, List.countP_cons]

theorem activeCount_insert_other (db : Database) (u u2 : String) (now : Nat)
    (note : String) (h : ¬u = u2) :
    activeCount (insertEntry db u now note) u2 = activeCount db u2 := by
  unfold activeCount insertEntry
  rw [List.countP_append]
  simp [activeFor, freshEntry, List.countP_cons, h]

theorem activeCount_stopUpdate_le (db : Database) (j t : Nat) (u : String) :
    activeCount (stopUpdate db j t) u ≤ activeCount db u := by
  unfold activeCount stopUpdate
  rw [List.countP_map]
  apply List.countP_mono_left
  intro e _ hpe
  simp only [Function.comp_apply] at hpe
  by_cases hj : (e.id == j) = true
  · rw [if_pos hj] at hpe
    simp [activeFor] at hpe
  · rw [if_neg hj] at hpe
    exact hpe

theorem applyOp_active_unique (db : Database) (op : Op) (h : ActiveUnique db) :
    ActiveUnique (applyOp db op) := by
  cases op with
  | start u note now =>
    unfold applyOp StartTracking
    by_cases ha : hasActiveEntry db u = true
    · simp only [ha, if_true]
      exact h
    · have ha2 : hasActiveEntry db u = false := by
        revert ha; cases hasActiveEntry db u <;> simp
      simp only [ha2, Bool.false_eq_true, if_false]
      intro u2
      by_cases hu : u = u2
      · subst hu
        rw [activeCount_insert_self, hasActiveEntry_false_iff.mp ha2]
      · rw [activeCount_insert_other _ _ _ _ _ hu]
        exact h u2
  | stop u now =>
    simp only [applyOp, StopTracking]
    cases hg : getActiveEntry db u with
    | none => exact h
    | some e =>
      intro u2
      exact le_trans (activeCount_stopUpdate_le db e.id now u2) (h u2)

theorem runOps_active_unique (ops : List Op) (db : Database) (h : ActiveUnique db) :
    ActiveUnique (runOps db ops) := by
  induction ops generalizing db with
  | nil => exact h
  | cons op ops ih =>
    show ActiveUnique (runOps (applyOp db op) ops)
    exact ih _ (applyOp_active_unique db op h)

theorem startTracking_already_active {db : Database} {u : String}
    (note : String) (now : Nat) (h : hasActiveEntry db u = true) :
    StartTracking db u note now = Except.error alreadyActiveMsg := by
  unfold StartTracking
  rw [h]
  rfl

/- ### Stop-path lemmas -/

theorem getActiveEntry_none_of_idle {db : Database} {u : String}
    (h : hasActiveEntry db u = false) : getActiveEntry db u = none := by
  unfold getActiveEntry
  have h0 : db.entries.countP (activeFor u) = 0 := hasActiveEntry_false_iff.mp h
  rw [List.countP_eq_zero] at h0
  rw [List.find?_eq_none.mpr h0]
  rfl

theorem getActiveEntry_some_of_active {db : Database} {u : String}
    (h : hasActiveEntry db u = true) :
    ∃ e, db.entries.find? (activeFor u) = some e := by
  have hpos : 0 < db.entries.countP (activeFor u) := by
    unfold hasActiveEntry at h
    exact of_decide_eq_true h
  have hex : ∃ x, x ∈ db.entries ∧ activeFor u x = true := by
    by_contra hc
    push_neg at hc
    have hz : db.entries.countP (activeFor u) = 0 :=
      List.countP_eq_zero.mpr (fun a ha hp => hc a ha hp)
    omega
  rcases hex with ⟨x, hx, hpx⟩
  have hs := List.find?_isSome.mpr ⟨x, hx, hpx⟩
  cases hfind : db.entries.find? (activeFor u) with
  | none => rw [hfind] at hs; simp at hs
  | some e => exact ⟨e, rfl⟩

theorem stopUpdate_mem_of_ne {db : Database} {j t : Nat} {e2 : Entry}
    (h : e2 ∈ (stopUpdate db j t).entries) (hne : e2.id ≠ j) : e2 ∈ db.entries := by
  unfold stopUpdate at h
  simp only [List.mem_map] at h
  rcases h with ⟨e, he, heq⟩
  by_cases hj : (e.id == j) = true
  · rw [if_pos hj] at heq
    exfalso
    apply hne
    rw [← heq]
    simpa using hj
  · rw [if_neg hj] at heq
    exact heq ▸ he

theorem stopUpdate_flags {db : Database} {j t : Nat} {e2 : Entry}
    (h : e2 ∈ (stopUpdate db j t).entries) (hid : e2.id = j) :
    e2.active = false ∧ e2.endTime = some t := by
  unfold stopUpdate at h
  simp only [List.mem_map] at h
  rcases h with ⟨e, he, heq⟩
  by_cases hj : (e.id == j) = true
  · rw [if_pos hj] at heq
    rw [← heq]
    exact ⟨rfl, rfl⟩
  · rw [if_neg hj] at heq
    exfalso
    apply hj
    rw [heq, hid]
    simp

theorem stopUpdate_length (db : Database) (j t : Nat) :
    (stopUpdate db j t).entries.length = db.entries.length := by
  unfold stopUpdate
  exact List.length_map _ _

/- ### Marking-loop accounting -/

theorem eq_of_mem_id :
    ∀ {l : List Entry}, (l.map Entry.id).Nodup →
      ∀ {e e0 : Entry}, e ∈ l → e0 ∈ l → e.id = e0.id → e = e0 := by
  intro l
  induction l with
  | nil => intro _ e e0 he; cases he
  | cons a l ih =>
    intro hnd e e0 he he0 hid
    rw [List.map_cons, List.nodup_cons] at hnd
    rcases List.mem_cons.mp he with he | he <;>
      rcases List.mem_cons.mp he0 with he0 | he0
    · rw [he, he0]
    · exfalso
      apply hnd.1
      rw [← he, hid]
      exact List.mem_map_of_mem Entry.id he0
    · exfalso
      apply hnd.1
      rw [← he0, ← hid]
      exact List.mem_map_of_mem Entry.id he
    · exact ih hnd.2 he he0 hid

theorem entryId_update_keyed (i now : Nat) :
    ∀ e : Entry,
      ((fun e : Entry =>
        if e.id == i then { e with importedAt := some now } else e) e).id = e.id := by
  intro e
  show (if e.id == i then { e with importedAt := some now } else e).id = e.id
  by_cases h : (e.id == i) = true
  · rw [if_pos h]
  · rw [if_neg h]

theorem markLoop_count (now : Nat) :
    ∀ (ids : List Nat) (db : Database), (db.entries.map Entry.id).Nodup →
      (markLoop noFail now db ids).2 = eligCount db ids ∧
      unimportedLen (markLoop noFail now db ids).1 + eligCount db ids = unimportedLen db ∧
      (markLoop noFail now db ids).1.entries.map Entry.id = db.entries.map Entry.id := by
  intro ids
  induction ids with
  | nil =>
    intro db hnd
    refine ⟨by simp [markLoop, eligCount], by simp [markLoop, eligCount], rfl⟩
  | cons i rest ih =>
    intro db hnd
    cases hf : db.entries.find? (fun e => e.id == i) with
    | none =>
      have hc : CheckEntry db i = (false, true) := by
        unfold CheckEntry
        rw [hf]
      have hp : processOne db noFail i now = (db, 0) := by
        unfold processOne
        simp [noFail, hc]
      have helig : eligCount db (i :: rest) = eligCount db rest := by
        unfold eligCount
        apply List.countP_congr
        intro e he
        have hne := List.find?_eq_none.mp hf e he
        have hne2 : e.id ≠ i := by simpa using hne
        simp [List.contains_cons, hne2]
      have hstep : markLoop noFail now db (i :: rest) = markLoop noFail now db rest := by
        simp [markLoop, hp]
      have hrest := ih db hnd
      refine ⟨?_, ?_, ?_⟩
      · rw [hstep, helig]
        exact hrest.1
      · rw [hstep, helig]
        exact hrest.2.1
      · rw [hstep]
        exact hrest.2.2
    | some e0 =>
      have he0i : e0.id = i := by
        have := List.find?_some hf
        simpa using this
      have he0mem : e0 ∈ db.entries := List.mem_of_find?_eq_some hf
      cases hu : e0.importedAt.isNone with
      | false =>
        have hc : CheckEntry db i = (true, false) := by
          unfold CheckEntry
          rw [hf]
          simp [hu]
        have hp : processOne db noFail i now = (db, 0) := by
          unfold processOne
          simp [noFail, hc]
        have helig : eligCount db (i :: rest) = eligCount db rest := by
          unfold eligCount
          apply List.countP_congr
          intro e he
          by_cases hei : (e.id == i) = true
          · have heq : e = e0 :=
              eq_of_mem_id hnd he he0mem (by rw [he0i]; simpa using hei)
            rw [heq]
            simp [hu]
          · have hei2 : e.id ≠ i := by simpa using hei
            simp [List.contains_cons, hei2]
        have hstep : markLoop noFail now db (i :: rest) = markLoop noFail now db rest := by
          simp [markLoop, hp]
        have hrest := ih db hnd
        refine ⟨?_, ?_, ?_⟩
        · rw [hstep, helig]
          exact hrest.1
        · rw [hstep, helig]
          exact hrest.2.1
        · rw [hstep]
          exact hrest.2.2
      | true =>
        have hc : CheckEntry db i = (true, true) := by
          unfold CheckEntry
          rw [hf]
          simp [hu]
        have hp : processOne db noFail i now = (UpdateEntryImportStatus db i now, 1) := by
          unfold processOne
          simp [noFail, hc]
        have hids : (UpdateEntryImportStatus db i now).entries.map Entry.id
            = db.entries.map Entry.id := by
          unfold UpdateEntryImportStatus
          exact map_id_update _ _ (entryId_update_keyed i now)
        have hnd2 : ((UpdateEntryImportStatus db i now).entries.map Entry.id).Nodup := by
          rw [hids]
          exact hnd
        have hrest := ih (UpdateEntryImportStatus db i now) hnd2
        have hA : db.entries.countP (fun e => e.id == i && e.importedAt.isNone) = 1 := by
          have h1 : db.entries.countP (fun e => e.id == i && e.importedAt.isNone)
              = if e0.importedAt.isNone then 1 else 0 :=
            countP_id_found (fun e => e.importedAt.isNone) hnd hf
          rw [hu] at h1
          simpa using h1
        have hBal : unimportedLen (UpdateEntryImportStatus db i now) + 1
            = unimportedLen db := by
          have hk : (db.entries.map (fun e =>
                if e.id == i then { e with importedAt := some now } else e)).countP
                  (fun e => e.importedAt.isNone)
              + db.entries.countP (fun e => e.id == i && e.importedAt.isNone)
              = db.entries.countP (fun e => e.importedAt.isNone) :=
            countP_update_keyed db.entries i now (fun e => e.importedAt.isNone)
              (fun e => rfl)
          rw [hA] at hk
          exact hk
        have hL : eligCount db (i :: rest)
            = db.entries.countP (fun e =>
                e.importedAt.isNone && (e.id == i || rest.contains e.id)) := by
          unfold eligCount
          apply List.countP_congr
          intro e he
          simp [List.contains_cons]
        have hIE : db.entries.countP (fun e =>
              e.importedAt.isNone && (e.id == i || rest.contains e.id))
            + db.entries.countP (fun e =>
              e.importedAt.isNone && (e.id == i && rest.contains e.id))
            = db.entries.countP (fun e => e.importedAt.isNone && (e.id == i))
            + db.entries.countP (fun e => e.importedAt.isNone && rest.contains e.id) :=
          countP_and_or (fun e => e.importedAt.isNone) (fun e => e.id == i)
            (fun e => rest.contains e.id) db.entries
        have hflip : db.entries.countP (fun e => e.importedAt.isNone && (e.id == i))
            = db.entries.countP (fun e => e.id == i && e.importedAt.isNone) :=
          List.countP_congr (fun e _ => by rw [Bool.and_comm])
        have hflip2 : db.entries.countP (fun e =>
              e.importedAt.isNone && (e.id == i && rest.contains e.id))
            = db.entries.countP (fun e =>
              e.id == i && (e.importedAt.isNone && rest.contains e.id)) :=
          List.countP_congr (fun e _ => by
            constructor
            · intro hx
              simp only [Bool.and_eq_true] at hx ⊢
              exact ⟨hx.2.1, hx.1, hx.2.2⟩
            · intro hx
              simp only [Bool.and_eq_true] at hx ⊢
              exact ⟨hx.2.1, hx.1, hx.2.2⟩)
        have hCval : db.entries.countP (fun e =>
              e.id == i && (e.importedAt.isNone && rest.contains e.id))
            = if rest.contains e0.id then 1 else 0 := by
          have h1 : db.entries.countP (fun e =>
              e.id == i && (e.importedAt.isNone && rest.contains e.id))
              = if e0.importedAt.isNone && rest.contains e0.id then 1 else 0 :=
            countP_id_found (fun e => e.importedAt.isNone && rest.contains e.id) hnd hf
          rw [hu] at h1
          simpa using h1
        have hErest : eligCount (UpdateEntryImportStatus db i now) rest
            + db.entries.countP (fun e =>
              e.id == i && (e.importedAt.isNone && rest.contains e.id))
            = eligCount db rest := by
          have hk : (db.entries.map (fun e =>
                if e.id == i then { e with importedAt := some now } else e)).countP
                  (fun e => e.importedAt.isNone && rest.contains e.id)
              + db.entries.countP (fun e =>
                e.id == i && (e.importedAt.isNone && rest.contains e.id))
              = db.entries.countP (fun e => e.importedAt.isNone && rest.contains e.id) :=
            countP_update_keyed db.entries i now
              (fun e => e.importedAt.isNone && rest.contains e.id) (fun e => by simp)
          exact hk
        have hdef : eligCount db rest
            = db.entries.countP (fun e => e.importedAt.isNone && rest.contains e.id) := rfl
        have hElig : eligCount db (i :: rest)
            = 1 + eligCount (UpdateEntryImportStatus db i now) rest := by
          rw [hL]
          rw [hflip, hflip2, hA, hCval] at hIE
          rw [hCval] at hErest
          rw [← hdef] at hIE
          omega
        have hstep : markLoop noFail now db (i :: rest)
            = ((markLoop noFail now (UpdateEntryImportStatus db i now) rest).1,
               1 + (markLoop noFail now (UpdateEntryImportStatus db i now) rest).2) := by
          simp [markLoop, hp]
        refine ⟨?_, ?_, ?_⟩
        · rw [hstep, hElig]
          simp only []
          rw [hrest.1]
        · rw [hstep, hElig]
          have h1 := hrest.2.1
          simp only []
          omega
        · rw [hstep]
          simp only []
          rw [hrest.2.2]
          exact hids

/- ### Skip persistence across the marking loop -/

theorem processOne_noFail_eq (db : Database) (i now : Nat) :
    processOne db noFail i now
      = if (CheckEntry db i).1 && (CheckEntry db i).2
        then (UpdateEntryImportStatus db i now, 1) else (db, 0) := by
  unfold processOne
  simp only [noFail, List.contains_nil, Bool.false_eq_true, if_false]
  cases hC : CheckEntry db i with
  | mk a b => cases a <;> cases b <;> simp

theorem checkSkips_update_self (db : Database) (i now : Nat) :
    checkSkips (UpdateEntryImportStatus db i now) i := by
  unfold checkSkips CheckEntry UpdateEntryImportStatus
  rw [find?_map_keyed _ (entryId_update_keyed i now) _ i]
  cases hf : db.entries.find? (fun e => e.id == i) with
  | none => exact Or.inl rfl
  | some e =>
    have hei := List.find?_some hf
    right
    show (if e.id == i then { e with importedAt := some now } else e).importedAt.isNone
      = false
    rw [if_pos hei]
    rfl

theorem checkSkips_update {db : Database} {i : Nat} (j now : Nat)
    (h : checkSkips db i) : checkSkips (UpdateEntryImportStatus db j now) i := by
  unfold checkSkips CheckEntry at h ⊢
  unfold UpdateEntryImportStatus
  rw [find?_map_keyed _ (entryId_update_keyed j now) _ i]
  cases hf : db.entries.find? (fun e => e.id == i) with
  | none => exact Or.inl rfl
  | some e =>
    rw [hf] at h
    rcases h with h | h
    · simp at h
    · right
      have h2 : e.importedAt.isNone = false := h
      show (if e.id == j then { e with importedAt := some now } else e).importedAt.isNone
        = false
      by_cases hj : (e.id == j) = true
      · rw [if_pos hj]
        rfl
      · rw [if_neg hj]
        exact h2

theorem processOne_eq (db : Database) (fm : FailureModel) (i now : Nat) :
    processOne db fm i now
      = if fm.checkFails.contains i then (db, 0)
        else if !(CheckEntry db i).1 then (db, 0)
        else if !(CheckEntry db i).2 then (db, 0)
        else if fm.updateFails.contains i then (db, 0)
        else (UpdateEntryImportStatus db i now, 1) := by
  unfold processOne
  rfl

theorem checkSkips_processOne {db : Database} {i : Nat} (fm : FailureModel)
    (j now : Nat) (h : checkSkips db i) :
    checkSkips (processOne db fm j now).1 i := by
  rw [processOne_eq]
  split
  · exact h
  · split
    · exact h
    · split
      · exact h
      · split
        · exact h
        · exact checkSkips_update j now h

theorem checkSkips_markLoop (fm : FailureModel) (now : Nat) :
    ∀ (ids : List Nat) (db : Database) (i : Nat), checkSkips db i →
      checkSkips (markLoop fm now db ids).1 i := by
  intro ids
  induction ids with
  | nil => intro db i h; exact h
  | cons j rest ih =>
    intro db i h
    show checkSkips (markLoop fm now (processOne db fm j now).1 rest).1 i
    exact ih _ i (checkSkips_processOne fm j now h)

theorem checkSkips_processOne_self (db : Database) (i now : Nat) :
    checkSkips (processOne db noFail i now).1 i := by
  rw [processOne_noFail_eq]
  cases hf : db.entries.find? (fun e => e.id == i) with
  | none =>
    have hc : CheckEntry db i = (false, true) := by
      unfold CheckEntry
      rw [hf]
    rw [hc]
    show checkSkips db i
    exact Or.inl (by rw [hc])
  | some e =>
    have hc : CheckEntry db i = (true, e.importedAt.isNone) := by
      unfold CheckEntry
      rw [hf]
    cases hu : e.importedAt.isNone with
    | false =>
      rw [hc, hu]
      show checkSkips db i
      exact Or.inr (by rw [hc, hu])
    | true =>
      rw [hc, hu]
      show checkSkips (UpdateEntryImportStatus db i now) i
      exact checkSkips_update_self db i now

theorem markLoop_post (now : Nat) :
    ∀ (ids : List Nat) (db : Database) (i : Nat), i ∈ ids →
      checkSkips (markLoop noFail now db ids).1 i := by
  intro ids
  induction ids with
  | nil => intro db i hi; cases hi
  | cons j rest ih =>
    intro db i hi
    rcases List.mem_cons.mp hi with hi | hi
    · subst hi
      show checkSkips (markLoop noFail now (processOne db noFail i now).1 rest).1 i
      exact checkSkips_markLoop noFail now rest _ i (checkSkips_processOne_self db i now)
    · exact ih _ i hi

theorem markLoop_skipAll (now : Nat) :
    ∀ (ids : List Nat) (db : Database), (∀ i ∈ ids, checkSkips db i) →
      markLoop noFail now db ids = (db, 0) := by
  intro ids
  induction ids with
  | nil => intro db _; rfl
  | cons j rest ih =>
    intro db h
    have hj := h j (List.mem_cons_self j rest)
    have hfalse : ((CheckEntry db j).1 && (CheckEntry db j).2) = false := by
      rcases hj with hj | hj <;> rw [hj] <;> simp
    have hpj : processOne db noFail j now = (db, 0) := by
      rw [processOne_noFail_eq, hfalse]
      simp
    have hrest := ih db (fun i hi => h i (List.mem_cons_of_mem j hi))
    simp [markLoop, hpj, hrest]

theorem checkSkips_of_no_unimported {db : Database} (h : unimportedLen db = 0)
    (i : Nat) : checkSkips db i := by
  unfold checkSkips CheckEntry
  cases hf : db.entries.find? (fun e => e.id == i) with
  | none => exact Or.inl rfl
  | some e =>
    right
    have hmem := List.mem_of_find?_eq_some hf
    unfold unimportedLen at h
    rw [List.countP_eq_zero] at h
    have hne := h e hmem
    show e.importedAt.isNone = false
    revert hne
    cases e.importedAt.isNone <;> simp

theorem getUnimported_length (db : Database) :
    (GetUnimportedEntries db).length = unimportedLen db := by
  unfold GetUnimportedEntries unimportedLen
  exact Eq.symm (List.countP_eq_length_filter _ db.entries)

/- ### Handler path equations -/

theorem markEntries_eq_ok (db : Database) (ids : List Nat) (fm : FailureModel)
    (now : Nat) (hne : (ids.length == 0) = false) (hlf : fm.listFails = false)
    (hrem : ((GetUnimportedEntries db).length == 0) = false) :
    markEntriesAsImported db (some ids) fm now
      = (MarkResponse.ok (markLoop fm now db ids).2 (GetUnimportedEntries db).length,
         (markLoop fm now db ids).1) := by
  unfold markEntriesAsImported
  dsimp only
  rw [hne]
  simp only [Bool.false_eq_true, if_false]
  rw [hlf]
  simp only [Bool.false_eq_true, if_false]
  rw [hrem]
  simp only [Bool.false_eq_true, if_false]

theorem markEntries_eq_404 (db : Database) (ids : List Nat) (fm : FailureModel)
    (now : Nat) (hne : (ids.length == 0) = false) (hlf : fm.listFails = false)
    (hrem : ((GetUnimportedEntries db).length == 0) = true) :
    markEntriesAsImported db (some ids) fm now
      = (MarkResponse.err 404 ErrorCode.NO_ENTRIES_TO_IMPORT, db) := by
  unfold markEntriesAsImported
  dsimp only
  rw [hne]
  simp only [Bool.false_eq_true, if_false]
  rw [hlf]
  simp only [Bool.false_eq_true, if_false]
  rw [hrem]
  simp only [if_true]

theorem length_beq_zero_false {ids : List Nat} (hne : ids ≠ []) :
    (ids.length == 0) = false := by
  cases ids with
  | nil => exact absurd rfl hne
  | cons a l => rfl

theorem unimported_beq_zero {db : Database} :
    ((GetUnimportedEntries db).length == 0) = (unimportedLen db == 0) := by
  rw [getUnimported_length]

theorem markEntries_noFail_snd (db : Database) (ids : List Nat) (now : Nat)
    (hne : ids ≠ []) :
    (markEntriesAsImported db (some ids) noFail now).2
      = (markLoop noFail now db ids).1 := by
  by_cases h0 : unimportedLen db = 0
  · have hz : ((GetUnimportedEntries db).length == 0) = true := by
      rw [unimported_beq_zero, h0]
      rfl
    rw [markEntries_eq_404 db ids noFail now (length_beq_zero_false hne) rfl hz]
    have hloop : markLoop noFail now db ids = (db, 0) :=
      markLoop_skipAll now ids db (fun i _ => checkSkips_of_no_unimported h0 i)
    rw [hloop]
  · have hz : ((GetUnimportedEntries db).length == 0) = false := by
      rw [unimported_beq_zero]
      cases hc : unimportedLen db with
      | zero => exact absurd hc h0
      | succ n => rfl
    rw [markEntries_eq_ok db ids noFail now (length_beq_zero_false hne) rfl hz]

/- ### Pending-note map -/

theorem removePendingNote_not_mem (l : List Nat) (u : Nat) :
    (removePendingNote l u).contains u = false := by
  unfold removePendingNote
  simp [List.mem_filter]

/- ### Claim theorems -/

/-- C1: for every user and every sequence of start/stop operations starting
from a store satisfying active uniqueness, the store keeps at most one
active entry per user at every observation point, and a `StartTracking`
issued while the user already has an active entry returns the
already-active invariant error and leaves the store unchanged (no row is
inserted). -/
theorem startStop_active_uniqueness (db : Database) (ops : List Op)
    (h : ActiveUnique db) :
    ActiveUnique (runOps db ops) ∧
    ∀ (u note : String) (now : Nat), hasActiveEntry db u = true →
      StartTracking db u note now = Except.error alreadyActiveMsg ∧
      applyOp db (Op.start u note now) = db := by
  refine ⟨runOps_active_unique ops db h, ?_⟩
  intro u note now ha
  have he := startTracking_already_active note now ha
  refine ⟨he, ?_⟩
  simp only [applyOp, he]

/-- Witness for C1 at a concrete store with one active entry of user 7 and
a concrete operation stream. -/
theorem startStop_active_uniqueness_witness :
    ActiveUnique (runOps dbActive7 opsDemo) ∧
    (StartTracking dbActive7 "7" "n" 4 = Except.error alreadyActiveMsg ∧
     applyOp dbActive7 (Op.start "7" "n" 4) = dbActive7) := by
  have hAU : ActiveUnique dbActive7 := by
    intro u
    show dbActive7.entries.countP (activeFor u) ≤ 1
    rw [show dbActive7.entries = [freshEntry 1 "7" 0 "work"] from rfl, List.countP_cons]
    simp only [List.countP_nil]
    split <;> omega
  exact ⟨(startStop_active_uniqueness dbActive7 opsDemo hAU).1,
    (startStop_active_uniqueness dbActive7 opsDemo hAU).2 "7" "n" 4 (by decide)⟩

/-- C2: for a non-empty batch over a store with unique ids and at least one
unimported entry, the mark handler (absent storage failures) answers with
`remaining_count` equal to the pre-call unimported count and
`imported_count` equal to the number of store entries that existed, were
unimported, and had their id in the batch; the post-call unimported count
differs from the reported `remaining_count` by exactly `imported_count`,
showing the count is the one taken before the mutations of this call. -/
theorem markEntries_counts (db : Database) (ids : List Nat) (now : Nat)
    (hnd : (db.entries.map Entry.id).Nodup) (hne : ids ≠ [])
    (hrem : unimportedLen db ≠ 0) :
    markEntriesAsImported db (some ids) noFail now
      = (MarkResponse.ok (eligCount db ids) (unimportedLen db),
         (markLoop noFail now db ids).1) ∧
    unimportedLen (markLoop noFail now db ids).1 + eligCount db ids
      = unimportedLen db := by
  have hm := markLoop_count now ids db hnd
  have hz : ((GetUnimportedEntries db).length == 0) = false := by
    rw [unimported_beq_zero]
    cases hc : unimportedLen db with
    | zero => exact absurd hc hrem
    | succ n => rfl
  constructor
  · rw [markEntries_eq_ok db ids noFail now (length_beq_zero_false hne) rfl hz]
    rw [hm.1, getUnimported_length]
  · exact hm.2.1

/-- Witness for C2: Scenario C — batch [1, 2, 3] against a store where 1 is
unimported, 2 already imported, 3 absent: `imported_count = 1`,
`remaining_count` is the pre-call unimported count 1. -/
theorem markEntries_counts_witness :
    (markEntriesAsImported dbScenC (some [1, 2, 3]) noFail 10
      = (MarkResponse.ok (eligCount dbScenC [1, 2, 3]) (unimportedLen dbScenC),
         (markLoop noFail 10 dbScenC [1, 2, 3]).1) ∧
     unimportedLen (markLoop noFail 10 dbScenC [1, 2, 3]).1
       + eligCount dbScenC [1, 2, 3] = unimportedLen dbScenC) ∧
    eligCount dbScenC [1, 2, 3] = 1 ∧ unimportedLen dbScenC = 1 := by
  refine ⟨markEntries_counts dbScenC [1, 2, 3] 10 ?_ ?_ ?_, ?_, ?_⟩
  · decide
  · decide
  · decide
  · decide
  · decide

/-- C3: replaying the same (non-empty) identifier batch right after a
failure-free first call marks nothing a second time: every identifier the
first call imported is reclassified as a skip, the store is unchanged by
the replay, and when the replay answers 200 its `imported_count` is 0 (no
identifier was still freshly eligible). -/
theorem markEntries_idempotent (db : Database) (ids : List Nat) (t1 t2 : Nat)
    (hne : ids ≠ []) :
    markLoop noFail t2 ((markEntriesAsImported db (some ids) noFail t1).2) ids
      = ((markEntriesAsImported db (some ids) noFail t1).2, 0) ∧
    (markEntriesAsImported ((markEntriesAsImported db (some ids) noFail t1).2)
        (some ids) noFail t2).2
      = (markEntriesAsImported db (some ids) noFail t1).2 ∧
    ∀ c r,
      (markEntriesAsImported ((markEntriesAsImported db (some ids) noFail t1).2)
        (some ids) noFail t2).1 = MarkResponse.ok c r → c = 0 := by
  have hdb1 : (markEntriesAsImported db (some ids) noFail t1).2
      = (markLoop noFail t1 db ids).1 := markEntries_noFail_snd db ids t1 hne
  have hskip : ∀ i ∈ ids,
      checkSkips ((markEntriesAsImported db (some ids) noFail t1).2) i := by
    intro i hi
    rw [hdb1]
    exact markLoop_post t1 ids db i hi
  have hloop : markLoop noFail t2 ((markEntriesAsImported db (some ids) noFail t1).2) ids
      = ((markEntriesAsImported db (some ids) noFail t1).2, 0) :=
    markLoop_skipAll t2 ids _ hskip
  refine ⟨hloop, ?_, ?_⟩
  · rw [markEntries_noFail_snd _ ids t2 hne, hloop]
  · intro c r hok
    by_cases h0 : unimportedLen ((markEntriesAsImported db (some ids) noFail t1).2) = 0
    · have hz : ((GetUnimportedEntries
          ((markEntriesAsImported db (some ids) noFail t1).2)).length == 0) = true := by
        rw [unimported_beq_zero, h0]
        rfl
      rw [markEntries_eq_404 _ ids noFail t2 (length_beq_zero_false hne) rfl hz] at hok
      cases hok
    · have hz : ((GetUnimportedEntries
          ((markEntriesAsImported db (some ids) noFail t1).2)).length == 0) = false := by
        rw [unimported_beq_zero]
        cases hc : unimportedLen ((markEntriesAsImported db (some ids) noFail t1).2) with
        | zero => exact absurd hc h0
        | succ n => rfl
      rw [markEntries_eq_ok _ ids noFail t2 (length_beq_zero_false hne) rfl hz] at hok
      rw [hloop] at hok
      injection hok with hok1 hok2
      exact hok1.symm

/-- Witness for C3: batch [1, 2] replayed against the three-entry store;
the replay leaves the store unchanged and reports `imported_count = 0`. -/
theorem markEntries_idempotent_witness :
    (markLoop noFail 6 ((markEntriesAsImported dbIdem (some [1, 2]) noFail 5).2) [1, 2]
      = ((markEntriesAsImported dbIdem (some [1, 2]) noFail 5).2, 0) ∧
     (markEntriesAsImported ((markEntriesAsImported dbIdem (some [1, 2]) noFail 5).2)
        (some [1, 2]) noFail 6).2
      = (markEntriesAsImported dbIdem (some [1, 2]) noFail 5).2 ∧
     ∀ c r,
      (markEntriesAsImported ((markEntriesAsImported dbIdem (some [1, 2]) noFail 5).2)
        (some [1, 2]) noFail 6).1 = MarkResponse.ok c r → c = 0) ∧
    (markEntriesAsImported ((markEntriesAsImported dbIdem (some [1, 2]) noFail 5).2)
      (some [1, 2]) noFail 6).1 = MarkResponse.ok 0 1 := by
  refine ⟨markEntries_idempotent dbIdem [1, 2] 5 6 ?_, ?_⟩
  · decide
  · decide

/-- C4: `StopTracking` on a user with no active entry fails with the
no-active-entry error and (as run through `applyOp`) leaves the store
unchanged; with an active entry it returns the scanned snapshot stamped
with `end_time` and `active = false`, updates only rows carrying that
entry id (stamping them identically), and touches no other row. -/
theorem stopTracking_spec (db : Database) (u : String) (now : Nat) :
    (hasActiveEntry db u = false →
      StopTracking db u now = Except.error noActiveMsg ∧
      applyOp db (Op.stop u now) = db) ∧
    (hasActiveEntry db u = true →
      ∃ e0, getActiveEntry db u = some e0 ∧
        StopTracking db u now
          = Except.ok ({ e0 with endTime := some now, active := false },
              stopUpdate db e0.id now) ∧
        e0.userId = u ∧ e0.active = true ∧
        (stopUpdate db e0.id now).entries.length = db.entries.length ∧
        (∀ e2 ∈ (stopUpdate db e0.id now).entries, e2.id ≠ e0.id → e2 ∈ db.entries) ∧
        (∀ e2 ∈ (stopUpdate db e0.id now).entries, e2.id = e0.id →
          e2.active = false ∧ e2.endTime = some now)) := by
  constructor
  · intro h
    have hg := getActiveEntry_none_of_idle h
    constructor
    · unfold StopTracking
      rw [hg]
    · simp only [applyOp, StopTracking, hg]
  · intro h
    rcases getActiveEntry_some_of_active h with ⟨e, hfind⟩
    have hact := List.find?_some hfind
    have huser : e.userId = u := by
      have := hact
      unfold activeFor at this
      simp only [Bool.and_eq_true, beq_iff_eq] at this
      exact this.1
    have hactive : e.active = true := by
      have := hact
      unfold activeFor at this
      simp only [Bool.and_eq_true] at this
      exact this.2
    refine ⟨{ e with note := "", importedAt := none }, ?_, ?_, huser, hactive, ?_, ?_, ?_⟩
    · unfold getActiveEntry
      rw [hfind]
      rfl
    · unfold StopTracking getActiveEntry
      rw [hfind]
      rfl
    · exact stopUpdate_length db e.id now
    · intro e2 hmem hne
      exact stopUpdate_mem_of_ne hmem hne
    · intro e2 hmem hid
      exact stopUpdate_flags hmem hid

/-- Witness for C4: user 7 is idle (error path), user 5 has one active
entry (success path) in the concrete store. -/
theorem stopTracking_spec_witness :
    (StopTracking dbActive5 "7" 9 = Except.error noActiveMsg ∧
     applyOp dbActive5 (Op.stop "7" 9) = dbActive5) ∧
    (∃ e0, getActiveEntry dbActive5 "5" = some e0 ∧
      StopTracking dbActive5 "5" 9
        = Except.ok ({ e0 with endTime := some 9, active := false },
            stopUpdate dbActive5 e0.id 9) ∧
      e0.userId = "5" ∧ e0.active = true ∧
      (stopUpdate dbActive5 e0.id 9).entries.length = dbActive5.entries.length ∧
      (∀ e2 ∈ (stopUpdate dbActive5 e0.id 9).entries, e2.id ≠ e0.id →
        e2 ∈ dbActive5.entries) ∧
      (∀ e2 ∈ (stopUpdate dbActive5 e0.id 9).entries, e2.id = e0.id →
        e2.active = false ∧ e2.endTime = some 9)) :=
  ⟨(stopTracking_spec dbActive5 "7" 9).1 (by decide),
   (stopTracking_spec dbActive5 "5" 9).2 (by decide)⟩

/-- C5: while a user holds the pending-note marker, the next message `m`
is consumed: the marker is removed whether or not the start succeeded;
when the user has no active entry the store gains exactly one fresh entry
whose note is the empty string if `m` is literally "x" and `m` itself
otherwise; when the user is already tracking the store is unchanged. -/
theorem pendingNote_continuation (st : BotState) (userId : Nat) (m : String)
    (now : Nat) (h : hasPendingNote st userId = true) :
    hasPendingNote (dispatchMessage st userId m now) userId = false ∧
    (hasActiveEntry st.db (userKey userId) = false →
      (dispatchMessage st userId m now).db.entries
        = st.db.entries
          ++ [freshEntry st.db.nextId (userKey userId) now
                (if m == "x" then "" else m)]) ∧
    (hasActiveEntry st.db (userKey userId) = true →
      (dispatchMessage st userId m now).db = st.db) := by
  have hd : dispatchMessage st userId m now = processPendingNote st userId m now := by
    unfold dispatchMessage
    rw [h]
    simp only [if_true]
  rw [hd]
  unfold processPendingNote
  dsimp only
  by_cases ha : hasActiveEntry st.db (userKey userId) = true
  · have he : StartTracking st.db (userKey userId) (if m == "x" then "" else m) now
        = Except.error alreadyActiveMsg := startTracking_already_active _ _ ha
    rw [he]
    refine ⟨removePendingNote_not_mem _ _, ?_, fun _ => rfl⟩
    intro hf
    rw [hf] at ha
    cases ha
  · have ha2 : hasActiveEntry st.db (userKey userId) = false := by
      revert ha
      cases hasActiveEntry st.db (userKey userId) <;> simp
    have he : StartTracking st.db (userKey userId) (if m == "x" then "" else m) now
        = Except.ok (insertEntry st.db (userKey userId) now
            (if m == "x" then "" else m)) := by
      unfold StartTracking
      rw [ha2]
      simp only [Bool.false_eq_true, if_false]
    rw [he]
    refine ⟨removePendingNote_not_mem _ _, fun _ => rfl, ?_⟩
    intro hf
    rw [hf] at ha2
    cases ha2

/-- Witness for C5: user 5 awaiting a note; "hello" becomes the note,
"x" becomes the empty note, and a pending note while already tracking
leaves the store unchanged but clears the marker. -/
theorem pendingNote_continuation_witness :
    hasPendingNote (dispatchMessage stPend 5 "hello" 3) 5 = false ∧
    (dispatchMessage stPend 5 "hello" 3).db.entries
      = emptyDb.entries ++ [freshEntry emptyDb.nextId (userKey 5) 3 "hello"] ∧
    (dispatchMessage stPend 5 "x" 4).db.entries
      = emptyDb.entries ++ [freshEntry emptyDb.nextId (userKey 5) 4 ""] ∧
    hasPendingNote (dispatchMessage stPendActive 5 "note" 6) 5 = false ∧
    (dispatchMessage stPendActive 5 "note" 6).db = stPendActive.db := by
  refine ⟨(pendingNote_continuation stPend 5 "hello" 3 (by decide)).1, ?_, ?_,
    (pendingNote_continuation stPendActive 5 "note" 6 (by decide)).1,
    (pendingNote_continuation stPendActive 5 "note" 6 (by decide)).2.2 (by decide)⟩
  · have h2 := (pendingNote_continuation stPend 5 "hello" 3 (by decide)).2.1 (by decide)
    simpa using h2
  · have h2 := (pendingNote_continuation stPend 5 "x" 4 (by decide)).2.1 (by decide)
    simpa using h2

/-- C6: an empty (or absent, which decodes to empty) identifier batch is
rejected as a 400 `MISSING_PARAMS` request-validation failure before any
storage access, for every store, failure model and time; the response is
distinct from the business 404 `NO_ENTRIES_TO_IMPORT` result. -/
theorem markEntries_empty_validation (db : Database) (fm : FailureModel) (now : Nat) :
    markEntriesAsImported db (some []) fm now
      = (MarkResponse.err 400 ErrorCode.MISSING_PARAMS, db) ∧
    MarkResponse.err 400 ErrorCode.MISSING_PARAMS
      ≠ MarkResponse.err 404 ErrorCode.NO_ENTRIES_TO_IMPORT := by
  exact ⟨rfl, by decide⟩

/-- C7: the middleware rejects a missing Authorization header with the
`MISSING_TOKEN` kind and a malformed header (wrong shape or scheme) with
the distinct `INVALID_TOKEN` kind; a well-formed header whose token hash
is not found and one resolving to an inactive token are rejected with one
and the same undifferentiated invalid-or-inactive response; every
rejection terminates the call before the protected handler runs. -/
theorem authMiddleware_spec (tokens : List ApiToken) (hashFn : String → String) :
    (AuthMiddleware tokens hashFn ""
      = AuthOutcome.rejected 401 ErrorCode.MISSING_TOKEN
          "Authentication token required") ∧
    (∀ hdr : String, hdr ≠ "" →
      ((splitN2 hdr).length != 2
        || lowerString ((splitN2 hdr).headD "") != "bearer") = true →
      AuthMiddleware tokens hashFn hdr
        = AuthOutcome.rejected 401 ErrorCode.INVALID_TOKEN
            "Invalid Authorization header format") ∧
    (∀ hdr : String, hdr ≠ "" →
      ((splitN2 hdr).length != 2
        || lowerString ((splitN2 hdr).headD "") != "bearer") = false →
      GetApiTokenByHash tokens (hashFn ((splitN2 hdr).getD 1 "")) = none →
      AuthMiddleware tokens hashFn hdr
        = AuthOutcome.rejected 401 ErrorCode.INVALID_TOKEN
            "Invalid or inactive API token") ∧
    (∀ (hdr : String) (t : ApiToken), hdr ≠ "" →
      ((splitN2 hdr).length != 2
        || lowerString ((splitN2 hdr).headD "") != "bearer") = false →
      GetApiTokenByHash tokens (hashFn ((splitN2 hdr).getD 1 "")) = some t →
      t.isActive = false →
      AuthMiddleware tokens hashFn hdr
        = AuthOutcome.rejected 401 ErrorCode.INVALID_TOKEN
            "Invalid or inactive API token") ∧
    ErrorCode.MISSING_TOKEN ≠ ErrorCode.INVALID_TOKEN ∧
    (∀ (hdr : String) (s : Nat) (c : ErrorCode) (msg : String)
        (handler : ApiToken → MarkResponse),
      AuthMiddleware tokens hashFn hdr = AuthOutcome.rejected s c msg →
      authThen tokens hashFn hdr handler = MarkResponse.err s c) := by
  refine ⟨rfl, ?_, ?_, ?_, by decide, ?_⟩
  · intro hdr hne hcond
    have hb : (hdr == "") = false := by
      simp [hne]
    unfold AuthMiddleware
    rw [hb]
    simp only [Bool.false_eq_true, if_false]
    rw [hcond]
    simp only [if_true]
  · intro hdr hne hcond hnone
    have hb : (hdr == "") = false := by
      simp [hne]
    unfold AuthMiddleware
    rw [hb]
    simp only [Bool.false_eq_true, if_false]
    rw [hcond]
    simp only [Bool.false_eq_true, if_false]
    rw [hnone]
  · intro hdr t hne hcond hsome hinact
    have hb : (hdr == "") = false := by
      simp [hne]
    unfold AuthMiddleware
    rw [hb]
    simp only [Bool.false_eq_true, if_false]
    rw [hcond]
    simp only [Bool.false_eq_true, if_false]
    rw [hsome]
    dsimp only
    rw [hinact]
    simp only [Bool.not_false, if_true]
  · intro hdr s c msg handler hrej
    unfold authThen
    rw [hrej]

/-- Witness for C7 on a concrete token table: missing header, Basic
scheme, unknown token and deactivated token all yield the stated
rejections, and the composed call returns the middleware error without
running the handler. -/
theorem authMiddleware_spec_witness :
    AuthMiddleware tokensW hashW ""
      = AuthOutcome.rejected 401 ErrorCode.MISSING_TOKEN
          "Authentication token required" ∧
    AuthMiddleware tokensW hashW "Basic abc"
      = AuthOutcome.rejected 401 ErrorCode.INVALID_TOKEN
          "Invalid Authorization header format" ∧
    AuthMiddleware tokensW hashW "Bearer nope"
      = AuthOutcome.rejected 401 ErrorCode.INVALID_TOKEN
          "Invalid or inactive API token" ∧
    AuthMiddleware tokensW hashW "Bearer dead"
      = AuthOutcome.rejected 401 ErrorCode.INVALID_TOKEN
          "Invalid or inactive API token" ∧
    authThen tokensW hashW "Bearer dead" (fun _ => MarkResponse.ok 7 7)
      = MarkResponse.err 401 ErrorCode.INVALID_TOKEN := by
  have h1 := (authMiddleware_spec tokensW hashW).1
  have h2 := (authMiddleware_spec tokensW hashW).2.1 "Basic abc" (by decide) (by decide)
  have h3 := (authMiddleware_spec tokensW hashW).2.2.1 "Bearer nope" (by decide)
    (by decide) (by decide)
  have h4 := (authMiddleware_spec tokensW hashW).2.2.2.1 "Bearer dead"
    { id := 2, hash := "h-dead", isActive := false } (by decide) (by decide)
    (by decide) rfl
  exact ⟨h1, h2, h3, h4,
    (authMiddleware_spec tokensW hashW).2.2.2.2.2 "Bearer dead" 401
      ErrorCode.INVALID_TOKEN "Invalid or inactive API token" _ h4⟩

/-- C8 counterexample: a user in the AwaitingNote state who sends the help
command does not keep their state — the dispatch consumes "/help" as the
pending note, clearing the marker and creating an entry. -/
theorem help_in_awaitingNote_changes_state :
    dispatchMessage stPend 5 "/help" 3 ≠ stPend := by decide

/-- C8 amended: for a user not in the AwaitingNote state (Idle or Active),
processing the help command leaves the conversational state and the store
unchanged; in AwaitingNote the message is consumed as the pending note
instead, because the dispatch checks the pending-note marker before
command parsing. -/
theorem help_keeps_state (st : BotState) (u : Nat) (now : Nat)
    (h : hasPendingNote st u = false) :
    dispatchMessage st u "/help" now = st := by
  unfold dispatchMessage
  rw [h]
  simp only [Bool.false_eq_true, if_false]
  have hstart : startsWithSlash "/help" = true := by decide
  rw [if_pos hstart]
  have hcmd : commandOf "/help" = "help" := by decide
  have hargs : argsOf "/help" = "" := by decide
  rw [hcmd, hargs]
  unfold handleCommand
  have h1 : ("help" == "start") = false := by decide
  have h2 : ("help" == "stop") = false := by decide
  rw [h1]
  simp only [Bool.false_eq_true, if_false]
  rw [h2]
  simp only [Bool.false_eq_true, if_false]

/-- Witness for the amended C8 at a concrete state with an active entry
and no pending marker. -/
theorem help_keeps_state_witness :
    dispatchMessage stIdle 5 "/help" 11 = stIdle :=
  help_keeps_state stIdle 5 11 (by decide)

/-- C9: at the concrete failing input (a valid non-empty batch with the
unimported-set read failing), the list handler surfaces the storage
failure as 500 `FAILED_FETCH`, but the mark handler writes no response at
all — it logs and returns, leaving the store untouched — instead of the
internal-error class response the claim requires. -/
theorem storage_error_divergence :
    getUnimportedEntriesHandler dbScenC true
      = ListResponse.err 500 ErrorCode.FAILED_FETCH ∧
    markEntriesAsImported dbScenC (some [1]) failFetch 5
      = (MarkResponse.noResponse, dbScenC) ∧
    (∀ (s : Nat) (c : ErrorCode), MarkResponse.noResponse ≠ MarkResponse.err s c) := by
  refine ⟨rfl, rfl, ?_⟩
  intro s c hc
  cases hc

/-- C10: `CheckEntry` on an id carried by no row reports
`(exists, unimported) = (false, true)` — the SQLite aggregate CASE over
the NULL `imported_at` of the absent row yields 1. -/
theorem checkEntry_nonexistent (db : Database) (entryId : Nat)
    (h : ∀ e ∈ db.entries, e.id ≠ entryId) :
    CheckEntry db entryId = (false, true) := by
  have hn : db.entries.find? (fun e => e.id == entryId) = none :=
    List.find?_eq_none.mpr (fun x hx => by simpa using h x hx)
  unfold CheckEntry
  rw [hn]

/-- Witness for C10: id 3 is absent from the Scenario C store. -/
theorem checkEntry_nonexistent_witness :
    CheckEntry dbScenC 3 = (false, true) :=
  checkEntry_nonexistent dbScenC 3 (by decide)
